import Mathlib

/-!
# Verification of the ResClient resource cache and protocol client

Shallow embedding of the repository's two source files:

* `src/unnamed/part_000` — the `ResClient` class (cache, subscription state
  machine, LCS patch diff, protocol send/receive);
* `src/src/class/ResCollection.js` — the collection value type.

JavaScript values appearing in request parameters are modelled by `JSVal`;
objects are association lists in key-insertion order (matching `Object.keys`
enumeration order for string keys).  Machine mutation of objects is modelled
where a claim depends on it (a small heap for `setModel`).  Functions that can
throw are modelled with `Except`.
-/

set_option autoImplicit false

namespace ResClient

/-- A JavaScript value, as far as the client's request parameters need:
`undefined`, `null`, booleans, numbers, strings, objects (association lists in
key order) and arrays. -/
inductive JSVal : Type where
  | undef : JSVal
  | null : JSVal
  | bool (b : Bool) : JSVal
  | num (n : Int) : JSVal
  | str (s : String) : JSVal
  | obj (fields : List (String × JSVal)) : JSVal
  | arr (elems : List JSVal) : JSVal

/-- The test `v === undefined`. -/
def JSVal.isUndef : JSVal → Bool
  | .undef => true
  | _ => false

/-- JavaScript truthiness for `JSVal` (used by `params || undefined` in
`_sendNow`): `undefined`, `null`, `false`, `0`, and `""` are falsy. -/
def JSVal.truthy : JSVal → Bool
  | .undef => false
  | .null => false
  | .bool b => b
  | .num n => n != 0
  | .str s => s ≠ ""
  | .obj _ => true
  | .arr _ => true

/-- The delete sentinel `const actionDelete = { action: 'delete' }` from
`part_000`. -/
def actionDelete : JSVal := .obj [("action", .str "delete")]

/-! ## setModel (`part_000` lines 234–244)

```js
setModel(modelId, props) {
    props = Object.assign({}, props);
    // Replace undefined with actionDelete object
    Object.keys(props).forEach(k => {
        if (props[k] === undefined) {
            props[k] = actionDelete;
        }
    });
    return this._send('call.' + modelId + '.set', props);
}
```

`props` is passed by reference, and `Object.assign({}, props)` allocates a
fresh object; the `forEach` loop then mutates only that fresh object.  To make
the frame property (the caller's object is untouched) a real statement, we
model a small heap of JS objects: addresses are indices into a list, and
allocation appends at the end (a fresh address). -/

/-- A JS object: own enumerable string-keyed properties in insertion order.
`Object.assign({}, o)` copies exactly these entries (including keys whose
value is `undefined`). -/
abbrev JSObject := List (String × JSVal)

/-- A heap of JS objects; the address of an object is its index. -/
structure JSHeap : Type where
  objs : List JSObject

/-- Allocate a fresh object on the heap; returns the new heap and the
address of the fresh object. -/
def JSHeap.alloc (h : JSHeap) (o : JSObject) : JSHeap × Nat :=
  (⟨h.objs ++ [o]⟩, h.objs.length)

/-- Overwrite the object stored at address `r`. -/
def JSHeap.setObj (h : JSHeap) (r : Nat) (o : JSObject) : JSHeap :=
  ⟨h.objs.set r o⟩

/-- Read the object stored at address `r`. -/
def JSHeap.getObj (h : JSHeap) (r : Nat) : Option JSObject :=
  h.objs[r]?

/-- The body of the `forEach` loop of `setModel`: every key whose value is
`undefined` is rebound to the `actionDelete` sentinel, every other key keeps
its value. -/
def translateProps (o : JSObject) : JSObject :=
  o.map fun kv => (kv.1, if kv.2.isUndef then actionDelete else kv.2)

/-- Function `setModel(modelId, props)` on the heap model: reads the caller's object at
address `propsRef`, copies it with `Object.assign({}, props)` into a freshly
allocated object, mutates the copy in the `forEach` loop, and hands
`('call.' + modelId + '.set', copy)` to `_send`.  Returns the final heap and
the `(method, params)` pair given to `_send`. -/
def setModel (h : JSHeap) (modelId : String) (propsRef : Nat) :
    JSHeap × String × JSVal :=
  let orig := (h.getObj propsRef).getD []
  let (h1, copyRef) := h.alloc orig
  let h2 := h1.setObj copyRef (translateProps orig)
  (h2, "call." ++ modelId ++ ".set", .obj ((h2.getObj copyRef).getD []))

/-! ## registerModelType (`part_000` lines 152–162)

```js
registerModelType(modelType) {
    if (this.modelTypes[modelType.id]) {
        throw new Error(`Model type ${modeType.id} already registered`);
    }
    if (!modelType.id || !modelType.id.match(/^[^.]+\.[^.]+$/)) {
        throw new Error(`Invalid model type id: ${modelType.id}`);
    }
    this.modelTypes[modelType.id] = modelType;
}
```

Note the duplicate branch's message interpolates `modeType` (sic), an unbound
identifier, so in JS that branch throws a `ReferenceError` while building the
message; either way the call throws and the registry is not modified. -/

/-- A registered model type; the factory itself is irrelevant to the
registration logic, so it is a tag. -/
structure ModelType : Type where
  id : String
  deriving Repr, DecidableEq

/-- The errors `registerModelType` can throw. -/
inductive RegError : Type where
  /-- The `throw` in the duplicate branch evaluates the unbound identifier
  `modeType`, so a `ReferenceError` escapes instead of the intended
  `Error`. -/
  | referenceError (name : String) : RegError
  /-- The `Invalid model type id` error. -/
  | invalidId (id : String) : RegError
  deriving Repr, DecidableEq

/-- The model-type registry: `this.modelTypes`, an object keyed by id. -/
abbrev Registry := List (String × ModelType)

/-- First-match association lookup (JS property read on an object whose keys
are unique). -/
def lookupKey {β : Type} (l : List (String × β)) (k : String) : Option β :=
  match l with
  | [] => none
  | (k', v) :: t => if k' = k then some v else lookupKey t k

/-- Scan the maximal dot-free prefix: returns its length and the remaining
characters (which start with `'.'` when nonempty). -/
def dotFreeSeg : List Char → Nat × List Char
  | [] => (0, [])
  | c :: cs =>
      if c = '.' then (0, c :: cs)
      else
        let (n, r) := dotFreeSeg cs
        (n + 1, r)

/-- The test `modelType.id.match(/^[^.]+\.[^.]+$/)`: one or more non-dot
characters, a dot, one or more non-dot characters, end of string. -/
def validTypeId (s : String) : Bool :=
  match dotFreeSeg s.toList with
  | (0, _) => false
  | (_ + 1, c :: r2) =>
      if c = '.' then
        match dotFreeSeg r2 with
        | (0, _) => false
        | (_ + 1, r3) => r3.isEmpty
      else false
  | (_ + 1, []) => false

/-- Method `registerModelType(modelType)`: returns the (unchanged on throw) registry
together with the thrown error, if any.  The duplicate check runs first; the
validity check second; on success the type is inserted under its id. -/
def registerModelType (reg : Registry) (mt : ModelType) :
    Registry × Option RegError :=
  if (lookupKey reg mt.id).isSome then
    (reg, some (.referenceError "modeType"))
  else if mt.id = "" || !validTypeId mt.id then
    (reg, some (.invalidId mt.id))
  else
    (reg ++ [(mt.id, mt)], none)

/-! ## _sendNow (`part_000` lines 294–309)

```js
_sendNow(method, params) {
    return new Promise((resolve, reject) => {
        var req = { id: this.reqId++, method: method, params: params || undefined };
        this.requests[req.id] = { method: method, params: req.params, resolve: resolve, reject: reject };
        var json = JSON.stringify(req);
        this.ws.send(json);
    });
}
```

`this.reqId` starts at 1 in the constructor and is only ever touched here, by
the post-increment. -/

/-- An outgoing request frame. -/
structure Request : Type where
  id : Nat
  method : String
  params : Option JSVal

/-- The expression `params || undefined`: a falsy `params` value is replaced by
`undefined` (absent). -/
def orUndefined (p : Option JSVal) : Option JSVal :=
  match p with
  | some v => if v.truthy then some v else none
  | none => none

/-- The request-id/pending-request portion of the client state touched by
`_sendNow`. -/
structure SendState : Type where
  reqId : Nat
  requests : List (Nat × Request)
  sent : List Request

/-- Method `_sendNow(method, params)`: assigns `id = reqId++`, stores the pending
request record under that id, and writes the frame to the websocket. -/
def sendNow (s : SendState) (method : String) (params : Option JSVal) :
    SendState × Request :=
  let req : Request := { id := s.reqId, method := method, params := orUndefined params }
  ({ reqId := s.reqId + 1
     requests := s.requests ++ [(req.id, req)]
     sent := s.sent ++ [req] }, req)

/-- A sequence of `_sendNow` calls: folds `sendNow` over a list of
`(method, params)` pairs, collecting the issued requests in order. -/
def sendSeq (s : SendState) : List (String × Option JSVal) → SendState × List Request
  | [] => (s, [])
  | (m, p) :: rest =>
      let (s', req) := sendNow s m p
      let (s'', reqs) := sendSeq s' rest
      (s'', req :: reqs)

/-! ## ResCollection (`src/src/class/ResCollection.js`)

The collection value type: an ordered list `_list` of items and, when an
`idCallback` is configured, a secondary id-lookup map `_map`.  Items are kept
abstract (`α`); `String(this._idCallback(v))` is modelled by an id callback
returning a `String` directly. -/

/-- A runtime error thrown by collection code.  `referenceError name` is the
JavaScript `ReferenceError` raised when the unbound identifier `name` is
evaluated. -/
inductive JsErr : Type where
  | referenceError (name : String) : JsErr
  | duplicateId (id : String) : JsErr
  deriving Repr, DecidableEq

/-- The `ResCollection` state: `_list`, `_map` and `_idCallback`.  A missing
`idCallback` means `_map` is `null`; it is modelled by an empty list that is
never consulted. -/
structure ResCollection (α : Type) : Type where
  list : List α
  map : List (String × α)
  idCallback : Option (α → String)

/-- The `forEach` loop of `__init`: for each item compute
`id = String(this._idCallback(v))`, throw `"Duplicate id - " + id` if `_map`
already has a truthy entry for `id`, otherwise store the item under `id`. -/
def rcInitLoop {α : Type} (f : α → String) :
    List α → List (String × α) → Except JsErr (List (String × α))
  | [], m => .ok m
  | v :: t, m =>
      let id := f v
      if (lookupKey m id).isSome then .error (.duplicateId id)
      else rcInitLoop f t (m ++ [(id, v)])

/-- Method `__init(data)` (lines 135–148): sets `_list = data || []` and, when an
`idCallback` is configured, rebuilds `_map`, throwing on a duplicate id.
(When the loop throws, the JS object is left with `_list` set and `_map`
partially filled; the `Except` model only records that the call threw.) -/
def rcInit {α : Type} (idCb : Option (α → String)) (data : List α) :
    Except JsErr (ResCollection α) :=
  match idCb with
  | none => .ok ⟨data, [], none⟩
  | some f => (rcInitLoop f data []).map fun m => ⟨data, m, some f⟩

/-- Method `__add(item, idx)` (lines 157–167): `this._list.splice(idx, 0, item)`
inserts the item at `idx` (clamped to the list length, as `splice` does); then,
when an `idCallback` is configured, the source evaluates
`String(this._idCallback(v))` — but `v` is an unbound identifier there, so the
call throws `ReferenceError: v is not defined` (after the splice has already
mutated `_list`; the `Except` model only records the throw). -/
def rcAdd {α : Type} (c : ResCollection α) (item : α) (idx : Nat) :
    Except JsErr (ResCollection α) :=
  let list' := c.list.take idx ++ [item] ++ c.list.drop idx
  match c.idCallback with
  | none => .ok { c with list := list' }
  | some _ => .error (.referenceError "v")

/-- Method `indexOf(item)` (lines 88–90): the body is
`return this._list.indexOf(id);` and `id` is an unbound identifier in that
scope, so every call throws `ReferenceError: id is not defined`. -/
def rcIndexOf {α : Type} (_c : ResCollection α) (_item : α) : Except JsErr Int :=
  .error (.referenceError "id")

/-- The `Array.prototype.indexOf` semantics, i.e. what
`this._list.indexOf(item)` would compute: the index of the first occurrence
of `item`, or `-1` when absent. -/
def arrayIndexOf {α : Type} [DecidableEq α] (l : List α) (item : α) : Int :=
  let i := l.indexOf item
  if i < l.length then (i : Int) else -1

/-- Computation of the start index of `splice(idx, 1)`: `undefined` coerces to `0`; a negative
index is relative to the end (clamped at 0); a large index is clamped to the
length. -/
def jsSpliceStart (len : Nat) (idx : Option Int) : Nat :=
  match idx with
  | none => 0
  | some i => if i < 0 then (len + i).toNat else min i.toNat len

/-- Array read `this._list[idx]`: `undefined` (`none`) or an out-of-range
index reads as `undefined`. -/
def jsArrayGet {α : Type} (l : List α) (idx : Option Int) : Option α :=
  match idx with
  | none => none
  | some i => if 0 ≤ i then l[i.toNat]? else none

/-- Method `__remove(idx)` (lines 176–185) restricted to `_list` (no `idCallback`):
`let item = this._list[idx]; this._list.splice(idx, 1); return item`.
Returns the item that `__remove` returns (`none` models `undefined`) and the
list after the splice.  Note that when `idx` is `undefined`, the element read
yields `undefined` while the splice still removes the element at index 0. -/
def rcRemove {α : Type} (l : List α) (idx : Option Int) : Option α × List α :=
  let item := jsArrayGet l idx
  let start := jsSpliceStart l.length idx
  (item, l.take start ++ l.drop (start + 1))

/-! ## _patchDiff (`part_000` lines 493–575)

The LCS patch diff.  It trims the common prefix (`s`) and suffix, builds the
LCS table `c` for the differing middle `aa`/`bb`, then walks the table
backwards emitting `onKeep`/`onRemove` callbacks and deferring `onAdd`
callbacks to a final forward pass.  The embedding returns the list of
callback invocations in emission order. -/

/-- One callback invocation of `_patchDiff`:
`onKeep(value, aIdx, bIdx, idx)`, `onAdd(value, bIdx, idx)`,
`onRemove(value, aIdx, idx)`. -/
inductive DiffOp : Type where
  | keep (v : String) (ai bi idx : Int) : DiffOp
  | add (v : String) (bi idx : Int) : DiffOp
  | remove (v : String) (ai idx : Int) : DiffOp
  deriving Repr, DecidableEq

/-- Array read `a[i]` at a possibly negative index: `none` models
`undefined`. -/
def intGet (l : List String) (i : Int) : Option String :=
  if 0 ≤ i then l[i.toNat]? else none

/-- The first trim loop: `while (s < m && s < n && a[s] === b[s]) s++`. -/
def prefixTrim : List String → List String → Nat
  | x :: xs, y :: ys => if x = y then prefixTrim xs ys + 1 else 0
  | _, _ => 0

/-- The second trim loop:
`while (s <= m && s <= n && a[m - 1] === b[n - 1]) { m--; n--; }`.
Note `===` compares `undefined === undefined` as true when an index is out of
range, so the loop is run on `Int` counters with option-valued reads.  The
fuel is an upper bound on the iteration count (each iteration needs `s ≤ m`
and decrements `m`, so at most `a.length + 1` iterations happen); exhausting
it is unreachable at the call site's fuel. -/
def suffixTrimGo (a b : List String) (s : Nat) : Nat → Int → Int → Int × Int
  | 0, m, n => (m, n)
  | fuel + 1, m, n =>
      if (s : Int) ≤ m ∧ (s : Int) ≤ n ∧ intGet a (m - 1) = intGet b (n - 1) then
        suffixTrimGo a b s fuel (m - 1) (n - 1)
      else (m, n)

/-- The slice `a.slice(s, e)` with a nonnegative start: a negative end index is
relative to the length, a large one is clamped. -/
def jsSlice (l : List String) (s : Nat) (e : Int) : List String :=
  let endIdx := if e < 0 then (l.length + e).toNat else min e.toNat l.length
  (l.take endIdx).drop s

/-- One row-fill step of the LCS matrix: given `aa[i]`, the remaining
`bb[j..]`, the previous row from column `j` on, and the value just written to
the left (`c[i+1][j]`), produce the new row's cells `c[i+1][j+1..]` by
`c[i+1][j+1] = aa[i] === bb[j] ? c[i][j] + 1 : max(c[i+1][j], c[i][j+1])`.
The previous row always has one more cell than the remaining `bb`, so the
final catch-all is unreachable. -/
def buildRow (ai : String) : List String → List Nat → Nat → List Nat
  | [], _, _ => []
  | b :: bs, p0 :: p1 :: ps, left =>
      let v := if ai = b then p0 + 1 else max left p1
      v :: buildRow ai bs (p1 :: ps) v
  | _ :: _, _, _ => []

/-- Rows `1..` of the LCS matrix, each derived from the previous row with a
zero in column 0. -/
def lcsRowsGo (bb : List String) : List String → List Nat → List (List Nat)
  | [], _prev => []
  | a :: rest, prev =>
      let next := 0 :: buildRow a bb prev 0
      next :: lcsRowsGo bb rest next

/-- The LCS matrix `c` of `_patchDiff`: `(m+1) × (n+1)`, row 0 and column 0
zero, filled row by row exactly as the two nested `for` loops do. -/
def lcsTable (aa bb : List String) : List (List Nat) :=
  let row0 := List.replicate (bb.length + 1) 0
  row0 :: lcsRowsGo bb aa row0

/-- Matrix read `c[i][j]`. -/
def lcsGet (c : List (List Nat)) (i j : Nat) : Nat :=
  (c.getD i []).getD j 0

/-- The backward walk (`while (true) { ... }`) of `_patchDiff`: starting at
`i = m`, `j = n`, `idx = m + s`, `r = 0`, it emits keeps and removes in
order, pushes deferred adds as `[n, idx, r]` triples, and breaks at
`i = j = 0`.  Returns the emitted ops, the pushed triples in push order, and
the final value of `r`.  The walk is driven by a fuel counter: every
iteration decreases `i + j` by at least one and the `break` fires exactly
when `i = j = 0` (when `i > 0` or `j > 0` one of the three branches always
applies), so with the call site's fuel `m + n` the fuel-exhausted base case
is reached only at `i = j = 0`, where it returns exactly what the `break`
returns. -/
def diffLoop (aa bb : List String) (c : List (List Nat)) (s : Nat) :
    Nat → Nat → Nat → Int → Nat → List DiffOp × List (Nat × Int × Nat) × Nat
  | 0, _, _, _, r => ([], [], r)
  | fuel + 1, i, j, idx, r =>
      if 0 < i ∧ 0 < j ∧ aa[i - 1]? = bb[j - 1]? then
        let (ops, adds, r') := diffLoop aa bb c s fuel (i - 1) (j - 1) (idx - 1) r
        (.keep (aa.getD (i - 1) "") (i - 1 + s : Nat) (j - 1 + s : Nat) (idx - 1) :: ops,
         adds, r')
      else if 0 < j ∧ (i = 0 ∨ lcsGet c i (j - 1) ≥ lcsGet c (i - 1) j) then
        let (ops, adds, r') := diffLoop aa bb c s fuel i (j - 1) idx r
        (ops, (j - 1, idx, r) :: adds, r')
      else if 0 < i ∧ (j = 0 ∨ lcsGet c i (j - 1) < lcsGet c (i - 1) j) then
        let (ops, adds, r') := diffLoop aa bb c s fuel (i - 1) j (idx - 1) (r + 1)
        (.remove (aa.getD (i - 1) "") (i - 1 + s : Nat) (idx - 1) :: ops, adds, r')
      else ([], [], r)

/-- Method `_patchDiff(a, b, onKeep, onAdd, onRemove)`: the full emission sequence —
suffix keeps (descending), the backward walk's keeps/removes, prefix keeps
(descending), then the deferred adds
(`onAdd(bb[n], n + s, idx - r + j + len - i)` over the pushed triples in
reverse push order, `r` being the final removal count). -/
def patchDiff (a b : List String) : List DiffOp :=
  let s := prefixTrim a b
  let (m1, n1) := suffixTrimGo a b s (a.length + b.length + 2) a.length b.length
  let aa := if 0 < s ∨ m1 < (a.length : Int) then jsSlice a s m1 else a
  let bb := if 0 < s ∨ n1 < (b.length : Int) then jsSlice b s n1 else b
  let m := aa.length
  let n := bb.length
  let suffixKeeps := ((List.range' (s + m) (a.length - (s + m))).reverse).map
      fun i => DiffOp.keep (a.getD i "") i ((i : Int) - m + n) i
  let (loopOps, adds, r) := diffLoop aa bb (lcsTable aa bb) s (m + n) m n (m + s : Nat) 0
  let prefixKeeps := (List.range s).reverse.map fun i => DiffOp.keep (a.getD i "") i i i
  let len : Int := (adds.length : Int) - 1
  let addOps := (adds.enum.reverse).map
      fun p => DiffOp.add (bb.getD p.2.1 "") (p.2.1 + s : Nat)
        (p.2.2.1 - r + p.2.2.2 + (len - p.1))
  suffixKeeps ++ loopOps ++ prefixKeeps ++ addOps

/-! ## _syncResource (`part_000` lines 767–799), collection branch

```js
let b = data.map(m => m.rid);
this._patchDiff(a, b,
    (id, m, n, idx) => { if (data[n].data) { this._getCachedResource(id, data[n].data); } },
    (id, n, idx) => this._handleAddEvent(cacheItem, 'add', { rid: id, data: data[n].data, idx: idx }),
    (id, m, idx) => this._handleRemoveEvent(cacheItem, 'remove', { rid: id })
);
```

The remove callback builds the event data object as `{ rid: id }` — without
an `idx` property — although `_handleRemoveEvent` reads `data.idx`. -/

/-- One element of a collection snapshot: `{ rid, data? }`. -/
structure SnapItem : Type where
  rid : String
  hasData : Bool
  deriving Repr, DecidableEq

/-- A handler invocation made by `_syncResource`'s collection branch, with
the data it passes along.  `removeEvent`'s second field is the `idx`
property of the data object given to `_handleRemoveEvent` (`none` = the
property is absent). -/
inductive SyncCall : Type where
  /-- An `onKeep` with a truthy `data[n].data`: `_getCachedResource(id, ...)`. -/
  | ingest (rid : String) : SyncCall
  /-- An `onKeep` with no data block: no call. -/
  | skip (rid : String) : SyncCall
  /-- A call `_handleAddEvent(cacheItem, 'add', { rid, data, idx })`. -/
  | addEvent (rid : String) (idx : Int) : SyncCall
  /-- A call `_handleRemoveEvent(cacheItem, 'remove', { rid })`. -/
  | removeEvent (rid : String) (idx : Option Int) : SyncCall
  deriving Repr, DecidableEq

/-- The sequence of handler invocations `_syncResource` makes for a stale
collection whose current rids are `a` and whose fresh snapshot is `snap`. -/
def syncCollection (a : List String) (snap : List SnapItem) : List SyncCall :=
  let b := snap.map (·.rid)
  (patchDiff a b).map fun op =>
    match op with
    | .keep v _ bi _ =>
        if ((intGet (snap.map (·.rid)) bi).isSome &&
            (snap.getD bi.toNat ⟨"", false⟩).hasData) then .ingest v else .skip v
    | .add v _ idx => .addEvent v idx
    | .remove v _ _ => .removeEvent v none

/-- Method `_handleRemoveEvent` (`part_000` lines 437–453) restricted to its effect
on the collection's list: reads `idx = data.idx`, removes via
`__remove(idx)`, emits `{ item, idx }` to listeners, then looks up
`this.cache[item.getResourceId()]` — which throws a `TypeError` when
`__remove` returned `undefined`.  Returns the list after the splice, and the
`item`/`idx` carried by the emitted `remove` event. -/
def handleRemoveEventOnList (l : List String) (idxField : Option Int) :
    Except String (List String × Option String × Option Int) :=
  let (item, l') := rcRemove l idxField
  match item with
  | none => .error "TypeError: cannot read getResourceId of undefined"
  | some v => .ok (l', some v, idxField)

/-! ## The resource cache (`part_000`)

`CacheItem`, `ResModel` and `resError` are repository files not included
under `src/`; the `CacheItem` record below is modelled from the spec:
its documented fields are `rid`, `item`, `direct`/`indirect` reference
counters, the `subscribed` flag and the optional in-flight `promise`, with
`addDirect`/`removeDirect`/`addIndirect`/`removeIndirect` adjusting the
counters and `setSubscribed`/`setItem`/`setPromise` setting the flags.  All
logic the claims are about (`_tryDelete`, `getResource`,
`_unsubscribeCacheItem`, `_subscribeReferred`, `_setStale`) lives in
`part_000` and is embedded from that source. -/

/-- The value bound to a cache item once data arrived: a model, or a
collection of child models (a collection element's identity is its child
rid, which is what `model.getResourceId()` returns when `_tryDelete` and
`_subscribeReferred` iterate a collection). -/
inductive ResValue : Type where
  | model : ResValue
  | collection (children : List String) : ResValue
  deriving Repr, DecidableEq

/-- Modelled from the spec: the `CacheItem` record (its source file is not
under `src/`).  Counters are `Int` so that a decrement of an already-zero
counter behaves like the JS `--`, not like truncated subtraction. -/
structure CacheItem : Type where
  rid : String
  direct : Int := 0
  indirect : Int := 0
  subscribed : Bool := false
  item : Option ResValue := none
  hasPromise : Bool := false
  deriving Repr, DecidableEq

/-- Flag `cacheItem.isCollection`: set when an item is bound; falsy before. -/
def CacheItem.isCollection (ci : CacheItem) : Bool :=
  match ci.item with
  | some (.collection _) => true
  | _ => false

/-- JS property assignment on an association list: replace the first binding,
else append. -/
def setKey {β : Type} : List (String × β) → String → β → List (String × β)
  | [], k, v => [(k, v)]
  | (k', v') :: t, k, v =>
      if k' = k then (k, v) :: t else (k', v') :: setKey t k v

/-- JS `delete obj[k]`: drop the binding. -/
def removeKey {β : Type} : List (String × β) → String → List (String × β)
  | [], _ => []
  | (k', v') :: t, k =>
      if k' = k then removeKey t k else (k', v') :: removeKey t k

/-- The client state the cache claims touch: connectivity, the cache map,
the armed stale-resubscribe timers (rids whose `setTimeout` was scheduled),
and the `_sendNow` state. -/
structure ClientState : Type where
  connected : Bool
  cache : List (String × CacheItem)
  timers : List String
  send : SendState

/-- Replace the cache entry for `rid` (mutation of the `CacheItem` object
held in `this.cache[rid]`). -/
def setCacheEntry (s : ClientState) (rid : String) (ci : CacheItem) : ClientState :=
  { s with cache := setKey s.cache rid ci }

/-- The statement `delete this.cache[rid]`. -/
def removeFromCache (s : ClientState) (rid : String) : ClientState :=
  { s with cache := removeKey s.cache rid }

/-- Method `_setStale(rid)` (`part_000` lines 461–467): if not connected, do
nothing; otherwise schedule `_subscribeToStale(rid)` after
`subscribeStaleDelay` — modelled as arming a timer for `rid`. -/
def setStale (s : ClientState) (rid : String) : ClientState :=
  if s.connected then { s with timers := s.timers ++ [rid] } else s

/-- Method `_tryDelete(cacheItem)` (`part_000` lines 685–717).  The
`for (let model of item)` loop over a collection's children — look the child
up (throwing `"Collection model not found in cache"` when absent),
`removeIndirect()`, then recursive `_tryDelete` — is the `foldlM` in the
collection branch.  `fuel` bounds the recursion depth (the JS recursion has
no bound; every theorem supplies enough fuel). -/
def tryDelete : Nat → ClientState → String → Except String (ClientState × Bool)
  | 0, _, _ => .error "out of fuel"
  | fuel + 1, s, rid =>
      match lookupKey s.cache rid with
      | none => .error "cache item not found"
      | some ci =>
          if ci.indirect ≠ 0 then .ok (s, false)
          else if ci.direct ≠ 0 then
            .ok (if ¬ci.subscribed then setStale s rid else s, false)
          else if ci.subscribed then .ok (s, false)
          else
            match ci.item with
            | some (.collection children) =>
                match children.foldlM (fun st c =>
                    match lookupKey st.cache c with
                    | none => Except.error "Collection model not found in cache"
                    | some cm =>
                        let s1 := setCacheEntry st c { cm with indirect := cm.indirect - 1 }
                        match tryDelete fuel s1 c with
                        | .error e => Except.error e
                        | .ok (s2, _) => Except.ok s2) s with
                | .error e => .error e
                | .ok s' => .ok (removeFromCache s' rid, true)
            | _ => .ok (removeFromCache s rid, true)

/-- The child loop of `_tryDelete`, written as a standalone recursion (used
to state and prove what the `foldlM` inside `tryDelete` does). -/
def deleteChildren (fuel : Nat) : ClientState → List String → Except String ClientState
  | s, [] => .ok s
  | s, c :: rest =>
      match lookupKey s.cache c with
      | none => .error "Collection model not found in cache"
      | some cm =>
          let s1 := setCacheEntry s c { cm with indirect := cm.indirect - 1 }
          match tryDelete fuel s1 c with
          | .error e => .error e
          | .ok (s2, _) => deleteChildren fuel s2 rest

/-! ## getResource (`part_000` lines 186–208)

```js
getResource(rid, collectionFactory = defaultCollectionFactory) {
    let cacheItem = this.cache[rid];
    if (cacheItem) {
        return cacheItem.promise ? cacheItem.promise : Promise.resolve(cacheItem.item);
    }
    cacheItem = new CacheItem(rid, this._unsubscribeCacheItem).setSubscribed(true);
    this.cache[rid] = cacheItem;
    cacheItem.setPromise(this._send('subscribe.' + rid)
        .then(response => { return this._getCachedResource(rid, response, false, collectionFactory).item; })
        .catch(err => { cacheItem.setSubscribed(false); this._tryDelete(cacheItem); throw err; }));
    return cacheItem.promise;
}
```

`_send` issues exactly one `_sendNow('subscribe.' + rid)` — immediately when
connected, or once after the connect promise resolves; the embedding records
the single issued request directly. -/

/-- What `getResource` hands back to the caller. -/
inductive GetResult : Type where
  /-- The cached entry's in-flight promise. -/
  | existingPromise : GetResult
  /-- The value `Promise.resolve(cacheItem.item)` on the cached entry. -/
  | existingItem (it : Option ResValue) : GetResult
  /-- The freshly attached subscribe promise. -/
  | newPromise : GetResult
  deriving Repr, DecidableEq

/-- The synchronous part of `getResource`. -/
def getResource (s : ClientState) (rid : String) : ClientState × GetResult :=
  match lookupKey s.cache rid with
  | some ci =>
      (s, if ci.hasPromise then .existingPromise else .existingItem ci.item)
  | none =>
      let ci : CacheItem := { rid := rid, subscribed := true, hasPromise := true }
      let s1 := { s with cache := setKey s.cache rid ci }
      let (send', _req) := sendNow s1.send ("subscribe." ++ rid) none
      ({ s1 with send := send' }, .newPromise)

/-- The `.catch` continuation of `getResource`'s subscribe:
`cacheItem.setSubscribed(false); this._tryDelete(cacheItem); throw err;`.
Returns the state after the release attempt and the error the rejected
promise propagates to the caller. -/
def getResourceOnFail (fuel : Nat) (s : ClientState) (rid : String) (err : String) :
    Except String (ClientState × String) :=
  match lookupKey s.cache rid with
  | none => .error "cache item not found"
  | some ci =>
      let s1 := setCacheEntry s rid { ci with subscribed := false }
      match tryDelete fuel s1 rid with
      | .error e => .error e
      | .ok (s2, _) => .ok (s2, err)

/-! ## _subscribeReferred and _unsubscribeCacheItem (`part_000` lines 801–843) -/

/-- The `for (let model of item)` loop of `_subscribeReferred`: for each
child that is not subscribed, has direct references, and is on its last
indirect reference, set `subscribed = true` and send `subscribe.<rid>`. -/
def subscribeReferredLoop : ClientState → List String → Except String ClientState
  | s, [] => .ok s
  | s, c :: rest =>
      match lookupKey s.cache c with
      | none => .error "Collection model not found in cache"
      | some cm =>
          if ¬cm.subscribed ∧ cm.direct ≠ 0 ∧ cm.indirect = 1 then
            let s1 := setCacheEntry s c { cm with subscribed := true }
            let (send', _req) := sendNow s1.send ("subscribe." ++ c) none
            subscribeReferredLoop { s1 with send := send' } rest
          else subscribeReferredLoop s rest

/-- Method `_subscribeReferred(cacheItem)` (lines 820–843): no-op when not
connected or when the entry is not a collection. -/
def subscribeReferred (s : ClientState) (rid : String) : Except String ClientState :=
  if ¬s.connected then .ok s
  else
    match lookupKey s.cache rid with
    | none => .error "cache item not found"
    | some ci =>
        match ci.item with
        | some (.collection children) => subscribeReferredLoop s children
        | _ => .ok s

/-- How a call of `_unsubscribeCacheItem` proceeded. -/
inductive UnsubStep : Type where
  /-- Early return `return this._tryDelete(cacheItem)` (entry not
  subscribed); carries `_tryDelete`'s return value. -/
  | released (deleted : Bool) : UnsubStep
  /-- Connected: an `unsubscribe.<rid>` request was sent; the state change
  happens in the continuation (`unsubscribeSuccess`/`unsubscribeFailure`). -/
  | pendingUnsubscribe : UnsubStep
  /-- Not connected: the `else` branch ran `this._tryDelete(cacheItem)`
  synchronously — note the source does **not** call `setSubscribed(false)`
  there. -/
  | immediate : UnsubStep
  deriving Repr, DecidableEq

/-- Method `_unsubscribeCacheItem(cacheItem)` (lines 801–818), the release callback
invoked when the last direct listener is removed. -/
def unsubscribeCacheItem (fuel : Nat) (s : ClientState) (rid : String) :
    Except String (ClientState × UnsubStep) :=
  match lookupKey s.cache rid with
  | none => .error "cache item not found"
  | some ci =>
      if ¬ci.subscribed then
        match tryDelete fuel s rid with
        | .error e => .error e
        | .ok (s', del) => .ok (s', .released del)
      else
        match subscribeReferred s rid with
        | .error e => .error e
        | .ok s1 =>
            if s1.connected then
              let (send', _req) := sendNow s1.send ("unsubscribe." ++ rid) none
              .ok ({ s1 with send := send' }, .pendingUnsubscribe)
            else
              match tryDelete fuel s1 rid with
              | .error e => .error e
              | .ok (s2, _) => .ok (s2, .immediate)

/-- The `.then` continuation of the unsubscribe request:
`cacheItem.setSubscribed(false); this._tryDelete(cacheItem);`. -/
def unsubscribeSuccess (fuel : Nat) (s : ClientState) (rid : String) :
    Except String ClientState :=
  match lookupKey s.cache rid with
  | none => .error "cache item not found"
  | some ci =>
      let s1 := setCacheEntry s rid { ci with subscribed := false }
      match tryDelete fuel s1 rid with
      | .error e => .error e
      | .ok (s2, _) => .ok s2

/-- The `.catch` continuation of the unsubscribe request:
`err => this._tryDelete(cacheItem)` — the source does **not** call
`setSubscribed(false)` on this path. -/
def unsubscribeFailure (fuel : Nat) (s : ClientState) (rid : String) :
    Except String ClientState :=
  match tryDelete fuel s rid with
  | .error e => .error e
  | .ok (s2, _) => .ok s2

/-- Whether a modelled call threw. -/
def isError {ε α : Type} : Except ε α → Bool
  | .error _ => true
  | .ok _ => false

/-! # Lemmas about the association-list primitives -/

theorem lookupKey_setKey_self {β : Type} (l : List (String × β)) (k : String) (v : β) :
    lookupKey (setKey l k v) k = some v := by
  induction l with
  | nil => simp [setKey, lookupKey]
  | cons p t ih =>
      obtain ⟨k', v'⟩ := p
      by_cases h : k' = k
      · simp [setKey, lookupKey, h]
      · simp [setKey, lookupKey, h, ih]

theorem lookupKey_setKey_ne {β : Type} (l : List (String × β)) (k k' : String) (v : β)
    (h : k' ≠ k) : lookupKey (setKey l k v) k' = lookupKey l k' := by
  have h2 : k ≠ k' := Ne.symm h
  induction l with
  | nil => simp [setKey, lookupKey, h2]
  | cons p t ih =>
      obtain ⟨k₀, v₀⟩ := p
      by_cases h0 : k₀ = k
      · subst h0
        simp [setKey, lookupKey, h2]
      · simp only [setKey, lookupKey, h0, if_false]
        by_cases h1 : k₀ = k'
        · simp [h1, lookupKey]
        · simp [lookupKey, h1, ih]

theorem lookupKey_removeKey_self {β : Type} (l : List (String × β)) (k : String) :
    lookupKey (removeKey l k) k = none := by
  induction l with
  | nil => simp [removeKey, lookupKey]
  | cons p t ih =>
      obtain ⟨k', v'⟩ := p
      by_cases h : k' = k
      · simp [removeKey, h, ih]
      · simp [removeKey, lookupKey, h, ih]

theorem lookupKey_removeKey_ne {β : Type} (l : List (String × β)) (k k' : String)
    (h : k' ≠ k) : lookupKey (removeKey l k) k' = lookupKey l k' := by
  have h2 : k ≠ k' := Ne.symm h
  induction l with
  | nil => simp [removeKey, lookupKey]
  | cons p t ih =>
      obtain ⟨k₀, v₀⟩ := p
      by_cases h0 : k₀ = k
      · subst h0
        simp [removeKey, lookupKey, h2, ih]
      · simp only [removeKey, h0, if_false]
        by_cases h1 : k₀ = k'
        · simp [h1, lookupKey]
        · simp [lookupKey, h1, ih]

theorem lookupKey_isSome_iff {β : Type} (l : List (String × β)) (k : String) :
    (lookupKey l k).isSome = true ↔ k ∈ l.map Prod.fst := by
  induction l with
  | nil => simp [lookupKey]
  | cons p t ih =>
      obtain ⟨k', v'⟩ := p
      by_cases h : k' = k
      · subst h; simp [lookupKey]
      · simp only [lookupKey, h, if_false, List.map_cons, List.mem_cons, ih]
        exact ⟨fun hm => Or.inr hm,
          fun hor => hor.elim (fun he => absurd he.symm h) id⟩

theorem set_concat_length {α : Type} (l : List α) (x y : α) :
    (l ++ [x]).set l.length y = l ++ [y] := by
  induction l with
  | nil => rfl
  | cons a t ih => simp [List.set, ih]

/-! # Claim theorems -/

/-- C1: the claim says the sync diff driven by `_syncResource` emits
`remove(B, idx=1)` then `add(D, idx=2)` for `a = [A,B,C]`, `b = [A,C,D]`,
each applicable at its emitted index.  The diff itself (`_patchDiff`) does
compute exactly those callbacks, removes before adds; but `_syncResource`'s
remove callback hands `_handleRemoveEvent` the data object `{ rid }` without
the `idx` property, so the handler reads `idx = undefined`, `__remove`
splices index 0 (removing `A`, returning `undefined`), and the handler then
throws a `TypeError` — listeners never observe `remove(B, idx=1)`. -/
theorem syncResource_remove_event_lacks_idx :
    patchDiff ["A", "B", "C"] ["A", "C", "D"] =
      [.keep "C" 2 1 2, .remove "B" 1 1, .keep "A" 0 0 0, .add "D" 2 2] ∧
    syncCollection ["A", "B", "C"] [⟨"A", true⟩, ⟨"C", true⟩, ⟨"D", true⟩] =
      [.ingest "C", .removeEvent "B" none, .ingest "A", .addEvent "D" 2] ∧
    rcRemove ["A", "B", "C"] (none : Option Int) = (none, ["B", "C"]) ∧
    handleRemoveEventOnList ["A", "B", "C"] none =
      .error "TypeError: cannot read getResourceId of undefined" :=
  ⟨rfl, rfl, rfl, rfl⟩

/-- C3: the claim says that when the release callback fires for a subscribed
entry and the client is not connected, `subscribed` is immediately cleared
and release is attempted (and likewise after a failed unsubscribe).  The
source's disconnected branch and `.catch` branch call only `_tryDelete`
without `setSubscribed(false)`, so a subscribed sole-reference entry stays
in the cache with `subscribed` still `true`; clearing the flag first (as the
claim demands) would release it. -/
theorem unsubscribeCacheItem_keeps_subscribed_flag :
    unsubscribeCacheItem 1
        ⟨false, [("m.1", { rid := "m.1", subscribed := true })], [], ⟨1, [], []⟩⟩ "m.1" =
      .ok (⟨false, [("m.1", { rid := "m.1", subscribed := true })], [], ⟨1, [], []⟩⟩,
           .immediate) ∧
    unsubscribeFailure 1
        ⟨true, [("m.1", { rid := "m.1", subscribed := true })], [], ⟨1, [], []⟩⟩ "m.1" =
      .ok ⟨true, [("m.1", { rid := "m.1", subscribed := true })], [], ⟨1, [], []⟩⟩ ∧
    tryDelete 1
        (setCacheEntry
          ⟨false, [("m.1", { rid := "m.1", subscribed := true })], [], ⟨1, [], []⟩⟩
          "m.1" { rid := "m.1", subscribed := false }) "m.1" =
      .ok (⟨false, [], [], ⟨1, [], []⟩⟩, true) :=
  ⟨rfl, rfl, rfl⟩

/-- C5: `setModel(rid, props)` hands `_send` the method
`call.<rid>.set` and a params object equal to the caller's props with every
`undefined`-valued key rebound to the `{action: "delete"}` sentinel and
every other value unchanged. -/
theorem setModel_sends_translated_params (h : JSHeap) (modelId : String)
    (propsRef : Nat) (orig : JSObject) (horig : h.getObj propsRef = some orig) :
    (setModel h modelId propsRef).2 =
      ("call." ++ modelId ++ ".set",
       JSVal.obj (orig.map fun kv => (kv.1, if kv.2.isUndef then actionDelete else kv.2))) := by
  have horig' : h.objs[propsRef]? = some orig := horig
  have hset := set_concat_length h.objs orig (translateProps orig)
  simp [setModel, JSHeap.alloc, JSHeap.setObj, JSHeap.getObj, horig', hset,
    List.getElem?_concat_length, translateProps]

/-- Witness for `setModel_sends_translated_params`:
`setModel("m.1", {a: undefined, b: 2})` sends params
`{a: {action: "delete"}, b: 2}`. -/
theorem setModel_sends_translated_params_witness :
    (setModel ⟨[[("a", JSVal.undef), ("b", JSVal.num 2)]]⟩ "m.1" 0).2 =
      ("call.m.1.set", JSVal.obj [("a", actionDelete), ("b", JSVal.num 2)]) := by
  have h := setModel_sends_translated_params ⟨[[("a", JSVal.undef), ("b", JSVal.num 2)]]⟩
    "m.1" 0 [("a", JSVal.undef), ("b", JSVal.num 2)] rfl
  simpa using h

/-- C10: `setModel` translates a copy: after the call, the caller's props
object on the heap is unchanged — same keys, same values, keys bound to
`undefined` included. -/
theorem setModel_preserves_caller_props (h : JSHeap) (modelId : String)
    (propsRef : Nat) (hlt : propsRef < h.objs.length) :
    ((setModel h modelId propsRef).1).getObj propsRef = h.getObj propsRef := by
  have hset := set_concat_length h.objs (h.objs[propsRef]?.getD [])
    (translateProps (h.objs[propsRef]?.getD []))
  simp only [setModel, JSHeap.alloc, JSHeap.setObj, JSHeap.getObj, hset]
  exact List.getElem?_append_left hlt

/-- Witness for `setModel_preserves_caller_props`: the caller's
`{a: undefined, b: 2}` is intact after `setModel`. -/
theorem setModel_preserves_caller_props_witness :
    ((setModel ⟨[[("a", JSVal.undef), ("b", JSVal.num 2)]]⟩ "m.1" 0).1).getObj 0 =
      some [("a", JSVal.undef), ("b", JSVal.num 2)] := by
  have h := setModel_preserves_caller_props ⟨[[("a", JSVal.undef), ("b", JSVal.num 2)]]⟩
    "m.1" 0 (by decide)
  simpa using h

/-- C6: `registerModelType` throws on a duplicate id and on an id not
matching `^[^.]+\.[^.]+$`, leaving the registry unchanged in both cases,
and inserts the type otherwise (so a second registration of the same id
fails). -/
theorem registerModelType_rejects_invalid_and_duplicate :
    (∀ (reg : Registry) (mt : ModelType), (lookupKey reg mt.id).isSome = true →
        registerModelType reg mt = (reg, some (.referenceError "modeType"))) ∧
    (∀ (reg : Registry) (mt : ModelType), (lookupKey reg mt.id).isSome = false →
        validTypeId mt.id = false →
        registerModelType reg mt = (reg, some (.invalidId mt.id))) ∧
    (∀ (reg : Registry) (mt : ModelType), (lookupKey reg mt.id).isSome = false →
        validTypeId mt.id = true →
        registerModelType reg mt = (reg ++ [(mt.id, mt)], none)) := by
  refine ⟨fun reg mt hdup => ?_, fun reg mt hdup hbad => ?_, fun reg mt hdup hok => ?_⟩
  · simp [registerModelType, hdup]
  · simp [registerModelType, hdup, hbad]
  · have hne : mt.id ≠ "" := by
      intro he
      rw [he] at hok
      exact absurd hok (by decide)
    simp [registerModelType, hdup, hok, hne]

/-- Witness for `registerModelType_rejects_invalid_and_duplicate`:
registering `{id: "svc.x"}` succeeds once, fails the second time with the
registry unchanged, and `{id: "bad"}` is rejected as invalid. -/
theorem registerModelType_rejects_invalid_and_duplicate_witness :
    registerModelType [] ⟨"svc.x"⟩ = ([("svc.x", ⟨"svc.x"⟩)], none) ∧
    registerModelType [("svc.x", ⟨"svc.x"⟩)] ⟨"svc.x"⟩ =
      ([("svc.x", ⟨"svc.x"⟩)], some (.referenceError "modeType")) ∧
    registerModelType [] ⟨"bad"⟩ = ([], some (.invalidId "bad")) := by
  refine ⟨?_, ?_, ?_⟩
  · have h := registerModelType_rejects_invalid_and_duplicate.2.2 [] ⟨"svc.x"⟩ rfl rfl
    simpa using h
  · exact registerModelType_rejects_invalid_and_duplicate.1
      [("svc.x", ⟨"svc.x"⟩)] ⟨"svc.x"⟩ rfl
  · exact registerModelType_rejects_invalid_and_duplicate.2.1 [] ⟨"bad"⟩ rfl rfl

/-- The requests issued by a sequence of `_sendNow` calls carry the ids
`reqId, reqId + 1, …` in order. -/
theorem sendSeq_ids (calls : List (String × Option JSVal)) :
    ∀ s : SendState, ((sendSeq s calls).2.map Request.id) = List.range' s.reqId calls.length := by
  induction calls with
  | nil => intro s; simp [sendSeq]
  | cons c rest ih =>
      intro s
      obtain ⟨m, p⟩ := c
      simp [sendSeq, sendNow, ih, List.range'_succ]

/-- C9: across any sequence of `_sendNow` calls, request ids are strictly
increasing — any later request's id is greater than any earlier one's, so
ids are unique within a session. -/
theorem sendNow_ids_strictly_increasing (s : SendState)
    (calls : List (String × Option JSVal)) (i j : Nat) (ri rj : Request)
    (hij : i < j)
    (hi : ((sendSeq s calls).2)[i]? = some ri)
    (hj : ((sendSeq s calls).2)[j]? = some rj) : ri.id < rj.id := by
  have hlen : (sendSeq s calls).2.length = calls.length := by
    have := congrArg List.length (sendSeq_ids calls s)
    simpa using this
  have hjlt : j < calls.length := by
    rw [← hlen]
    exact List.getElem?_eq_some_iff.mp hj |>.1
  have hilt : i < calls.length := lt_trans hij hjlt
  have hmap := sendSeq_ids calls s
  have hri : some ri.id = some (s.reqId + i) := by
    calc some ri.id = ((sendSeq s calls).2.map Request.id)[i]? := by
          rw [List.getElem?_map, hi]; rfl
      _ = some (s.reqId + i) := by
          rw [hmap]
          have := List.getElem?_range' s.reqId 1 hilt
          simpa using this
  have hrj : some rj.id = some (s.reqId + j) := by
    calc some rj.id = ((sendSeq s calls).2.map Request.id)[j]? := by
          rw [List.getElem?_map, hj]; rfl
      _ = some (s.reqId + j) := by
          rw [hmap]
          have := List.getElem?_range' s.reqId 1 hjlt
          simpa using this
  have h1 : ri.id = s.reqId + i := Option.some_injective _ hri
  have h2 : rj.id = s.reqId + j := Option.some_injective _ hrj
  omega

/-- Witness for `sendNow_ids_strictly_increasing`: two sends from a fresh
client issue ids 1 and 2. -/
theorem sendNow_ids_strictly_increasing_witness :
    ((sendSeq ⟨1, [], []⟩ [("subscribe.a", none), ("call.b.set", none)]).2)[0]? =
      some ⟨1, "subscribe.a", none⟩ ∧
    ((sendSeq ⟨1, [], []⟩ [("subscribe.a", none), ("call.b.set", none)]).2)[1]? =
      some ⟨2, "call.b.set", none⟩ ∧
    (⟨1, "subscribe.a", none⟩ : Request).id < (⟨2, "call.b.set", none⟩ : Request).id := by
  refine ⟨rfl, rfl, ?_⟩
  exact sendNow_ids_strictly_increasing ⟨1, [], []⟩
    [("subscribe.a", none), ("call.b.set", none)] 0 1 ⟨1, "subscribe.a", none⟩
    ⟨2, "call.b.set", none⟩ (by decide) rfl rfl

/-- C8: every call of `ResCollection.indexOf` throws a `ReferenceError`
(the body reads the unbound identifier `id` instead of `item`), whereas the
intended `this._list.indexOf(item)` would return the first index of `item`
or `-1`. -/
theorem indexOf_always_throws :
    (∀ (c : ResCollection String) (x : String),
        rcIndexOf c x = .error (.referenceError "id")) ∧
    rcIndexOf (⟨["A", "B"], [], none⟩ : ResCollection String) "B" =
      .error (.referenceError "id") ∧
    arrayIndexOf ["A", "B"] "B" = 1 ∧
    arrayIndexOf ["A", "B"] "Z" = -1 :=
  ⟨fun _ _ => rfl, rfl, by decide, by decide⟩

/-- Mapping the success value does not change whether a call threw. -/
theorem isError_map {ε α β : Type} (g : α → β) (e : Except ε α) :
    isError (e.map g) = isError e := by
  cases e <;> rfl

/-- The `__init` loop throws exactly when a freshly computed id collides
with the keys accumulated so far. -/
theorem rcInitLoop_error_iff {α : Type} (f : α → String) :
    ∀ (l : List α) (m : List (String × α)), (m.map Prod.fst).Nodup →
      (isError (rcInitLoop f l m) = true ↔ ¬ ((m.map Prod.fst) ++ l.map f).Nodup) := by
  intro l
  induction l with
  | nil =>
      intro m hm
      simp [rcInitLoop, isError, hm]
  | cons v t ih =>
      intro m hm
      by_cases hdup : (lookupKey m (f v)).isSome = true
      · have hmem : f v ∈ m.map Prod.fst := (lookupKey_isSome_iff m (f v)).mp hdup
        constructor
        · intro _ hnd
          rw [List.nodup_append] at hnd
          exact hnd.2.2 hmem (by simp)
        · intro _
          simp [rcInitLoop, hdup, isError]
      · have hnmem : f v ∉ m.map Prod.fst := fun hmem =>
          hdup ((lookupKey_isSome_iff m (f v)).mpr hmem)
        have hkeys : ((m ++ [(f v, v)]).map Prod.fst) = m.map Prod.fst ++ [f v] := by
          simp
        have hm' : ((m ++ [(f v, v)]).map Prod.fst).Nodup := by
          rw [hkeys, List.nodup_append]
          exact ⟨hm, List.nodup_singleton _, by
            intro x hx hx'
            simp at hx'
            subst hx'
            exact hnmem hx⟩
        have hstep : rcInitLoop f (v :: t) m = rcInitLoop f t (m ++ [(f v, v)]) := by
          simp [rcInitLoop, hdup]
        rw [hstep, ih (m ++ [(f v, v)]) hm', hkeys, List.append_assoc]
        simp

/-- C7: on a collection with an `idCallback`, `__init` fails exactly when
two data items map to the same id; but `__add` evaluates the unbound
identifier `v` (instead of the inserted `item`), so with an `idCallback`
present every `__add` throws a `ReferenceError` — also when the inserted
item's id is fresh, where the claim requires success. -/
theorem collection_add_reads_unbound_identifier :
    (∀ (f : String → String) (data : List String),
        isError (rcInit (some f) data) = true ↔ ¬ (data.map f).Nodup) ∧
    (∀ (f : String → String) (l : List String) (m : List (String × String))
        (item : String) (idx : Nat),
        rcAdd ⟨l, m, some f⟩ item idx = .error (.referenceError "v")) ∧
    rcAdd (⟨["a"], [("a", "a")], some (fun x => x)⟩ : ResCollection String) "b" 1 =
      .error (.referenceError "v") ∧
    rcInit (some (fun x => x)) ["a", "b", "a"] = .error (.duplicateId "a") := by
  refine ⟨fun f data => ?_, fun f l m item idx => rfl, rfl, rfl⟩
  have h := rcInitLoop_error_iff f data [] (by simp)
  simpa [rcInit, isError_map] using h

/-- Arming a stale timer does not touch the cache. -/
theorem setStale_cache (s : ClientState) (rid : String) :
    (setStale s rid).cache = s.cache := by
  by_cases h : s.connected <;> simp [setStale, h]

/-- The `foldlM` child loop inside `tryDelete` computes `deleteChildren`. -/
theorem foldlM_eq_deleteChildren (fuel : Nat) :
    ∀ (children : List String) (s : ClientState),
      (children.foldlM (fun st c =>
          match lookupKey st.cache c with
          | none => Except.error "Collection model not found in cache"
          | some cm =>
              let s1 := setCacheEntry st c { cm with indirect := cm.indirect - 1 }
              match tryDelete fuel s1 c with
              | .error e => Except.error e
              | .ok (s2, _) => Except.ok s2) s : Except String ClientState) =
        deleteChildren fuel s children := by
  intro children
  induction children with
  | nil => intro s; rfl
  | cons c rest ih =>
      intro s
      rw [List.foldlM_cons]
      cases hlk : lookupKey s.cache c with
      | none =>
          simp only [hlk, deleteChildren]
          rfl
      | some cm =>
          simp only [hlk, deleteChildren]
          cases htd : tryDelete fuel (setCacheEntry s c { cm with indirect := cm.indirect - 1 }) c with
          | error e =>
              simp only [htd]
              rfl
          | ok p =>
              obtain ⟨s2, b⟩ := p
              simp only [htd]
              calc (Except.ok s2 >>= fun s' => rest.foldlM _ s') = rest.foldlM _ s2 := rfl
                _ = deleteChildren fuel s2 rest := ih s2

/-- Unfolding `tryDelete` on a releasable collection entry: the child loop
runs, then the entry is dropped and `true` returned. -/
theorem tryDelete_collection (fuel : Nat) (s : ClientState) (rid : String)
    (ci : CacheItem) (children : List String)
    (hlk : lookupKey s.cache rid = some ci)
    (h1 : ci.indirect = 0) (h2 : ci.direct = 0) (h3 : ci.subscribed = false)
    (hit : ci.item = some (.collection children)) :
    tryDelete (fuel + 1) s rid =
      match deleteChildren fuel s children with
      | .error e => .error e
      | .ok s' => .ok (removeFromCache s' rid, true) := by
  simp only [tryDelete, hlk, h1, h2, h3, hit, ne_eq, not_true_eq_false, not_false_eq_true,
    if_false, if_true, Bool.false_eq_true]
  rw [foldlM_eq_deleteChildren]

/-- Unfolding one step of the child loop. -/
theorem deleteChildren_cons (fuel : Nat) (s : ClientState) (c : String)
    (rest : List String) (cm : CacheItem)
    (hlkc : lookupKey s.cache c = some cm) :
    deleteChildren fuel s (c :: rest) =
      match tryDelete fuel (setCacheEntry s c { cm with indirect := cm.indirect - 1 }) c with
      | .error e => .error e
      | .ok (s2, _) => deleteChildren fuel s2 rest := by
  simp only [deleteChildren, hlkc]

/-- Evaluation of `_tryDelete` on a cached model entry: removed and `true`
exactly under the release condition; otherwise retained, with the stale
timer path taken when only direct references remain. -/
theorem tryDelete_model_entry (fuel : Nat) (s : ClientState) (rid : String)
    (ci : CacheItem) (hlk : lookupKey s.cache rid = some ci)
    (hit : ci.item = some .model) :
    tryDelete (fuel + 1) s rid =
      if ci.indirect = 0 ∧ ci.direct = 0 ∧ ci.subscribed = false
      then .ok (removeFromCache s rid, true)
      else .ok ((if ci.indirect = 0 ∧ ci.direct ≠ 0 ∧ ci.subscribed = false
                 then setStale s rid else s), false) := by
  simp only [tryDelete, hlk, hit]
  by_cases hin : ci.indirect = 0 <;> by_cases hdi : ci.direct = 0 <;>
    by_cases hsub : ci.subscribed = true <;>
      simp_all [Bool.not_eq_true]

/-- The child loop on a list of cached model children: it succeeds, leaves
every non-child key alone, and each child ends up with `indirect`
decremented — removed from the cache exactly when that decrement made it
releasable. -/
theorem deleteChildren_models (fuel : Nat) :
    ∀ (kids : List String) (s : ClientState) (childOf : String → CacheItem),
      kids.Nodup →
      (∀ k ∈ kids, lookupKey s.cache k = some (childOf k) ∧
          (childOf k).item = some .model) →
      ∃ s', deleteChildren (fuel + 1) s kids = .ok s' ∧
        (∀ k, k ∉ kids → lookupKey s'.cache k = lookupKey s.cache k) ∧
        (∀ k ∈ kids, lookupKey s'.cache k =
          (if (childOf k).indirect - 1 = 0 ∧ (childOf k).direct = 0 ∧
              (childOf k).subscribed = false
           then none
           else some { childOf k with indirect := (childOf k).indirect - 1 })) := by
  intro kids
  induction kids with
  | nil =>
      intro s childOf _ _
      exact ⟨s, rfl, fun k _ => rfl, by simp⟩
  | cons c rest ih =>
      intro s childOf hnd hch
      obtain ⟨hlkc, hitc⟩ := hch c (by simp)
      have hcrest : c ∉ rest := (List.nodup_cons.mp hnd).1
      have hndrest : rest.Nodup := (List.nodup_cons.mp hnd).2
      have hlk1 : lookupKey
            (setCacheEntry s c { childOf c with indirect := (childOf c).indirect - 1 }).cache c =
          some { childOf c with indirect := (childOf c).indirect - 1 } :=
        lookupKey_setKey_self s.cache c _
      have hframe1 : ∀ k, k ≠ c →
          lookupKey
              (setCacheEntry s c { childOf c with indirect := (childOf c).indirect - 1 }).cache k =
            lookupKey s.cache k :=
        fun k hk => lookupKey_setKey_ne s.cache c k _ hk
      have htd := tryDelete_model_entry fuel
        (setCacheEntry s c { childOf c with indirect := (childOf c).indirect - 1 }) c
        { childOf c with indirect := (childOf c).indirect - 1 } hlk1 hitc
      rw [deleteChildren_cons (fuel + 1) s c rest (childOf c) hlkc, htd]
      by_cases hdel : (childOf c).indirect - 1 = 0 ∧ (childOf c).direct = 0 ∧
          (childOf c).subscribed = false
      · -- the decrement made the child releasable: it is dropped
        rw [if_pos hdel]
        have hch' : ∀ k ∈ rest,
            lookupKey (removeFromCache
              (setCacheEntry s c { childOf c with indirect := (childOf c).indirect - 1 }) c).cache k =
              some (childOf k) ∧ (childOf k).item = some .model := by
          intro k hk
          have hkc : k ≠ c := fun he => hcrest (he ▸ hk)
          refine ⟨?_, (hch k (by simp [hk])).2⟩
          rw [show (removeFromCache
              (setCacheEntry s c { childOf c with indirect := (childOf c).indirect - 1 }) c).cache =
              removeKey (setCacheEntry s c
                { childOf c with indirect := (childOf c).indirect - 1 }).cache c from rfl,
            lookupKey_removeKey_ne _ _ _ hkc, hframe1 k hkc]
          exact (hch k (by simp [hk])).1
        obtain ⟨s', hdc, hframe, hvals⟩ := ih _ childOf hndrest hch'
        refine ⟨s', hdc, ?_, ?_⟩
        · intro k hk
          have hkc : k ≠ c := fun he => hk (by simp [he])
          have hkrest : k ∉ rest := fun hr => hk (by simp [hr])
          rw [hframe k hkrest,
            show (removeFromCache
              (setCacheEntry s c { childOf c with indirect := (childOf c).indirect - 1 }) c).cache =
              removeKey (setCacheEntry s c
                { childOf c with indirect := (childOf c).indirect - 1 }).cache c from rfl,
            lookupKey_removeKey_ne _ _ _ hkc, hframe1 k hkc]
        · intro k hk
          rcases List.mem_cons.mp hk with he | hr
          · subst he
            rw [hframe k hcrest,
              show (removeFromCache
                (setCacheEntry s k { childOf k with indirect := (childOf k).indirect - 1 }) k).cache =
                removeKey (setCacheEntry s k
                  { childOf k with indirect := (childOf k).indirect - 1 }).cache k from rfl,
              lookupKey_removeKey_self]
            exact Eq.symm (if_pos hdel)
          · exact hvals k hr
      · -- the child survives with the decremented counter
        rw [if_neg hdel]
        have hQcache : ((if (childOf c).indirect - 1 = 0 ∧ (childOf c).direct ≠ 0 ∧
              (childOf c).subscribed = false
            then setStale (setCacheEntry s c
              { childOf c with indirect := (childOf c).indirect - 1 }) c
            else setCacheEntry s c
              { childOf c with indirect := (childOf c).indirect - 1 })).cache =
            (setCacheEntry s c { childOf c with indirect := (childOf c).indirect - 1 }).cache := by
          by_cases hq : (childOf c).indirect - 1 = 0 ∧ (childOf c).direct ≠ 0 ∧
              (childOf c).subscribed = false
          · rw [if_pos hq, setStale_cache]
          · rw [if_neg hq]
        have hch' : ∀ k ∈ rest,
            lookupKey ((if (childOf c).indirect - 1 = 0 ∧ (childOf c).direct ≠ 0 ∧
                (childOf c).subscribed = false
              then setStale (setCacheEntry s c
                { childOf c with indirect := (childOf c).indirect - 1 }) c
              else setCacheEntry s c
                { childOf c with indirect := (childOf c).indirect - 1 })).cache k =
              some (childOf k) ∧ (childOf k).item = some .model := by
          intro k hk
          have hkc : k ≠ c := fun he => hcrest (he ▸ hk)
          refine ⟨?_, (hch k (by simp [hk])).2⟩
          rw [hQcache, hframe1 k hkc]
          exact (hch k (by simp [hk])).1
        obtain ⟨s', hdc, hframe, hvals⟩ := ih _ childOf hndrest hch'
        refine ⟨s', hdc, ?_, ?_⟩
        · intro k hk
          have hkc : k ≠ c := fun he => hk (by simp [he])
          have hkrest : k ∉ rest := fun hr => hk (by simp [hr])
          rw [hframe k hkrest, hQcache, hframe1 k hkc]
        · intro k hk
          rcases List.mem_cons.mp hk with he | hr
          · subst he
            rw [hframe k hcrest, hQcache, hlk1]
            exact Eq.symm (if_neg hdel)
          · exact hvals k hr

/-- C2 (amended): `_tryDelete` removes the entry and returns `true` exactly
when `direct = 0`, `indirect = 0` and `subscribed` is false; when
`direct > 0` and the entry is not subscribed it arms the stale-resubscribe
timer **provided the client is connected** (no timer is armed while
disconnected); in every non-release case it returns `false` with the cache
unchanged; and removing a collection entry decrements `indirect` on every
child and recursively tries to delete each child. -/
theorem tryDelete_release_spec :
    (∀ (fuel : Nat) (s : ClientState) (rid : String) (s' : ClientState),
        tryDelete fuel s rid = .ok (s', true) →
        ∃ ci, lookupKey s.cache rid = some ci ∧
          ci.direct = 0 ∧ ci.indirect = 0 ∧ ci.subscribed = false) ∧
    (∀ (fuel : Nat) (s : ClientState) (rid : String) (ci : CacheItem),
        lookupKey s.cache rid = some ci →
        ci.direct = 0 → ci.indirect = 0 → ci.subscribed = false →
        ci.isCollection = false →
        tryDelete (fuel + 1) s rid = .ok (removeFromCache s rid, true)) ∧
    (∀ (fuel : Nat) (s : ClientState) (rid : String) (ci : CacheItem)
        (children : List String) (childOf : String → CacheItem),
        lookupKey s.cache rid = some ci →
        ci.direct = 0 → ci.indirect = 0 → ci.subscribed = false →
        ci.item = some (.collection children) →
        children.Nodup →
        (∀ k ∈ children, lookupKey s.cache k = some (childOf k) ∧
            (childOf k).item = some .model) →
        ∃ s', tryDelete (fuel + 2) s rid = .ok (s', true) ∧
          lookupKey s'.cache rid = none ∧
          (∀ k ∈ children, lookupKey s'.cache k =
            (if (childOf k).indirect - 1 = 0 ∧ (childOf k).direct = 0 ∧
                (childOf k).subscribed = false
             then none
             else some { childOf k with indirect := (childOf k).indirect - 1 }))) ∧
    (∀ (fuel : Nat) (s : ClientState) (rid : String) (ci : CacheItem),
        lookupKey s.cache rid = some ci → ci.indirect ≠ 0 →
        tryDelete (fuel + 1) s rid = .ok (s, false)) ∧
    (∀ (fuel : Nat) (s : ClientState) (rid : String) (ci : CacheItem),
        lookupKey s.cache rid = some ci → ci.indirect = 0 → ci.direct ≠ 0 →
        ci.subscribed = false →
        tryDelete (fuel + 1) s rid =
          .ok ({ s with timers := if s.connected then s.timers ++ [rid] else s.timers },
               false)) ∧
    (∀ (fuel : Nat) (s : ClientState) (rid : String) (ci : CacheItem),
        lookupKey s.cache rid = some ci → ci.indirect = 0 → ci.direct ≠ 0 →
        ci.subscribed = true →
        tryDelete (fuel + 1) s rid = .ok (s, false)) ∧
    (∀ (fuel : Nat) (s : ClientState) (rid : String) (ci : CacheItem),
        lookupKey s.cache rid = some ci → ci.indirect = 0 → ci.direct = 0 →
        ci.subscribed = true →
        tryDelete (fuel + 1) s rid = .ok (s, false)) := by
  refine ⟨?_, ?_, ?_, ?_, ?_, ?_, ?_⟩
  · -- release happens only under the release condition
    intro fuel s rid s' htd
    cases fuel with
    | zero => exact absurd htd (by simp [tryDelete])
    | succ fuel =>
        cases hlk : lookupKey s.cache rid with
        | none => simp [tryDelete, hlk] at htd
        | some ci =>
            simp only [tryDelete, hlk] at htd
            by_cases h1 : ci.indirect ≠ 0
            · rw [if_pos h1] at htd
              simp at htd
            · rw [if_neg h1] at htd
              by_cases h2 : ci.direct ≠ 0
              · rw [if_pos h2] at htd
                simp at htd
              · rw [if_neg h2] at htd
                by_cases h3 : ci.subscribed = true
                · rw [if_pos h3] at htd
                  simp at htd
                · rw [if_neg h3] at htd
                  exact ⟨ci, rfl, not_not.mp h2, not_not.mp h1, by simpa using h3⟩
  · -- releasable model (or item-less) entry: removed, returns true
    intro fuel s rid ci hlk h2 h1 h3 hcoll
    cases hvi : ci.item with
    | none => simp [tryDelete, hlk, h1, h2, h3, hvi]
    | some v =>
        cases v with
        | model => simp [tryDelete, hlk, h1, h2, h3, hvi]
        | collection ch => simp [CacheItem.isCollection, hvi] at hcoll
  · -- releasable collection entry: children decremented and re-tried
    intro fuel s rid ci children childOf hlk h2 h1 h3 hit hnd hch
    have hrid : rid ∉ children := by
      intro hmem
      obtain ⟨hl, hm⟩ := hch rid hmem
      rw [hlk] at hl
      have : ci = childOf rid := Option.some_injective _ hl
      rw [← this, hit] at hm
      simp at hm
    obtain ⟨s'', hdc, hframe, hvals⟩ := deleteChildren_models fuel children s childOf hnd hch
    have htd := tryDelete_collection (fuel + 1) s rid ci children hlk h1 h2 h3 hit
    rw [hdc] at htd
    refine ⟨removeFromCache s'' rid, htd, lookupKey_removeKey_self _ _, ?_⟩
    intro k hk
    have hkr : k ≠ rid := fun he => hrid (he ▸ hk)
    rw [show (removeFromCache s'' rid).cache = removeKey s''.cache rid from rfl,
      lookupKey_removeKey_ne _ _ _ hkr]
    exact hvals k hk
  · -- indirect references retain the entry
    intro fuel s rid ci hlk h1
    simp [tryDelete, hlk, h1]
  · -- direct-only, unsubscribed: retained, stale timer armed iff connected
    intro fuel s rid ci hlk h1 hd h3
    obtain ⟨sc, scache, stim, ssend⟩ := s
    simp only [tryDelete] at *
    simp [hlk, h1, hd, h3, setStale]
    by_cases hc : sc <;> simp [hc]
  · -- direct-only, still subscribed: retained, no timer
    intro fuel s rid ci hlk h1 hd h3
    simp [tryDelete, hlk, h1, hd, h3]
  · -- subscribed, no references: retained
    intro fuel s rid ci hlk h1 hd h3
    simp [tryDelete, hlk, h1, hd, h3]

/-- Counterexample to C2 as stated: an entry with `direct = 1`, not
subscribed, on a **disconnected** client — `_tryDelete` retains it but arms
no stale-resubscribe timer (`_setStale` returns early when not connected):
the state, timers included, is returned unchanged. -/
theorem tryDelete_disconnected_arms_no_timer :
    tryDelete 1 ⟨false, [("m.1", { rid := "m.1", direct := 1 })], [], ⟨1, [], []⟩⟩ "m.1" =
      .ok (⟨false, [("m.1", { rid := "m.1", direct := 1 })], [], ⟨1, [], []⟩⟩, false) ∧
    (⟨false, [("m.1", { rid := "m.1", direct := 1 })], [], ⟨1, [], []⟩⟩ : ClientState).timers
      = [] :=
  ⟨rfl, rfl⟩

/-- Witness for `tryDelete_release_spec`: a cached collection `c = [m]`
with `m` held only by that collection — deleting `c` drops both entries —
and a connected direct-only entry arms its timer. -/
theorem tryDelete_release_spec_witness :
    (∃ s', tryDelete 2
        ⟨true, [("c", { rid := "c", item := some (.collection ["m"]) }),
                ("m", { rid := "m", indirect := 1, item := some .model })], [], ⟨1, [], []⟩⟩
        "c" = .ok (s', true) ∧
      lookupKey s'.cache "c" = none ∧ lookupKey s'.cache "m" = none) ∧
    tryDelete 1 ⟨true, [("m.1", { rid := "m.1", direct := 1 })], [], ⟨1, [], []⟩⟩ "m.1" =
      .ok (⟨true, [("m.1", { rid := "m.1", direct := 1 })], ["m.1"], ⟨1, [], []⟩⟩, false) := by
  constructor
  · obtain ⟨s', htd, hc, hm⟩ := tryDelete_release_spec.2.2.1 0
      ⟨true, [("c", { rid := "c", item := some (.collection ["m"]) }),
              ("m", { rid := "m", indirect := 1, item := some .model })], [], ⟨1, [], []⟩⟩
      "c" { rid := "c", item := some (.collection ["m"]) } ["m"]
      (fun _ => { rid := "m", indirect := 1, item := some .model })
      rfl rfl rfl rfl rfl (by decide) (by intro k hk; fin_cases hk; exact ⟨rfl, rfl⟩)
    refine ⟨s', htd, hc, ?_⟩
    have := hm "m" (by decide)
    simpa using this
  · have h := tryDelete_release_spec.2.2.2.2.1 0
      ⟨true, [("m.1", { rid := "m.1", direct := 1 })], [], ⟨1, [], []⟩⟩ "m.1"
      { rid := "m.1", direct := 1 } rfl rfl (by decide) rfl
    simpa using h

/-- C4: `getResource` on a cached rid returns the existing promise or item
and sends nothing; on a miss it creates an entry with `subscribed = true`
and an in-flight promise and issues exactly one `subscribe.<rid>` request;
and the subscribe-failure continuation clears `subscribed`, try-deletes (so
a sole-reference entry leaves the cache) and propagates the error. -/
theorem getResource_spec :
    (∀ (s : ClientState) (rid : String) (ci : CacheItem),
        lookupKey s.cache rid = some ci →
        getResource s rid =
          (s, if ci.hasPromise then .existingPromise else .existingItem ci.item)) ∧
    (∀ (s : ClientState) (rid : String),
        lookupKey s.cache rid = none →
        getResource s rid =
          ({ s with
              cache := setKey s.cache rid { rid := rid, subscribed := true, hasPromise := true },
              send := { reqId := s.send.reqId + 1,
                        requests := s.send.requests ++
                          [(s.send.reqId, ⟨s.send.reqId, "subscribe." ++ rid, none⟩)],
                        sent := s.send.sent ++ [⟨s.send.reqId, "subscribe." ++ rid, none⟩] } },
           .newPromise)) ∧
    (∀ (fuel : Nat) (s : ClientState) (rid : String) (ci : CacheItem) (err : String),
        lookupKey s.cache rid = some ci →
        ci.direct = 0 → ci.indirect = 0 → ci.item = none →
        ∃ s', getResourceOnFail (fuel + 1) s rid err = .ok (s', err) ∧
          lookupKey s'.cache rid = none) := by
  refine ⟨?_, ?_, ?_⟩
  · intro s rid ci hlk
    simp [getResource, hlk]
  · intro s rid hlk
    simp [getResource, hlk, sendNow, orUndefined]
  · intro fuel s rid ci err hlk hd hi hit
    have hlk1 : lookupKey (setCacheEntry s rid { ci with subscribed := false }).cache rid =
        some { ci with subscribed := false } := lookupKey_setKey_self _ _ _
    have htd : tryDelete (fuel + 1) (setCacheEntry s rid { ci with subscribed := false }) rid =
        .ok (removeFromCache (setCacheEntry s rid { ci with subscribed := false }) rid, true) := by
      simp only [tryDelete, hlk1]
      simp [hd, hi, hit]
    refine ⟨removeFromCache (setCacheEntry s rid { ci with subscribed := false }) rid, ?_, ?_⟩
    · simp only [getResourceOnFail, hlk, htd]
    · exact lookupKey_removeKey_self _ _

/-- Witness for `getResource_spec`: fetching `m.1` from an empty cache
creates the entry and sends one subscribe; a second `getResource` returns
the in-flight promise without sending; the failure continuation drops the
entry and propagates the error. -/
theorem getResource_spec_witness :
    getResource ⟨true, [], [], ⟨1, [], []⟩⟩ "m.1" =
      (⟨true, [("m.1", { rid := "m.1", subscribed := true, hasPromise := true })], [],
        ⟨2, [(1, ⟨1, "subscribe.m.1", none⟩)], [⟨1, "subscribe.m.1", none⟩]⟩⟩, .newPromise) ∧
    getResource
        ⟨true, [("m.1", { rid := "m.1", subscribed := true, hasPromise := true })], [],
          ⟨2, [(1, ⟨1, "subscribe.m.1", none⟩)], [⟨1, "subscribe.m.1", none⟩]⟩⟩ "m.1" =
      (⟨true, [("m.1", { rid := "m.1", subscribed := true, hasPromise := true })], [],
        ⟨2, [(1, ⟨1, "subscribe.m.1", none⟩)], [⟨1, "subscribe.m.1", none⟩]⟩⟩,
       .existingPromise) ∧
    (∃ s', getResourceOnFail 1
        ⟨true, [("m.1", { rid := "m.1", subscribed := true, hasPromise := true })], [],
          ⟨2, [(1, ⟨1, "subscribe.m.1", none⟩)], [⟨1, "subscribe.m.1", none⟩]⟩⟩
        "m.1" "system.notFound" = .ok (s', "system.notFound") ∧
      lookupKey s'.cache "m.1" = none) := by
  refine ⟨?_, ?_, ?_⟩
  · have h := getResource_spec.2.1 ⟨true, [], [], ⟨1, [], []⟩⟩ "m.1" rfl
    simpa using h
  · have h := getResource_spec.1
      ⟨true, [("m.1", { rid := "m.1", subscribed := true, hasPromise := true })], [],
        ⟨2, [(1, ⟨1, "subscribe.m.1", none⟩)], [⟨1, "subscribe.m.1", none⟩]⟩⟩ "m.1"
      { rid := "m.1", subscribed := true, hasPromise := true } rfl
    simpa using h
  · exact getResource_spec.2.2 0
      ⟨true, [("m.1", { rid := "m.1", subscribed := true, hasPromise := true })], [],
        ⟨2, [(1, ⟨1, "subscribe.m.1", none⟩)], [⟨1, "subscribe.m.1", none⟩]⟩⟩
      "m.1" { rid := "m.1", subscribed := true, hasPromise := true } "system.notFound"
      rfl rfl rfl rfl

end ResClient
